import Mathlib

/-!
Shallow embedding of the Monarch Money reconciliation script
(src/MMReconcile.py) and proofs about its discrepancy-resolution engine.

Modelling conventions, used throughout:
* Decimal values are modelled as rationals.  The script sets
  getcontext().rounding = ROUND_HALF_UP (src line 42); in Python's decimal
  module ROUND_HALF_UP means "round to nearest with ties going away from
  zero", which is what roundHalfUpZ below implements.
* Calendar dates are modelled as integer day numbers; the script stores
  dates as ISO yyyy-mm-dd strings, whose lexicographic order and day
  arithmetic (timedelta) agree with the integer model.
* The memoized calibration value time_per_combination (src lines 56, 737-739)
  is produced by wall-clock timing of a randomized run; it is taken here as
  an explicit rational parameter of everything that consumes it.
-/

namespace MMReconcile

/-- Integer rounding used by Decimal.quantize under ROUND_HALF_UP
(src line 42): round to the nearest integer, ties away from zero. -/
def roundHalfUpZ (x : ℚ) : ℤ :=
if x < 0 then -⌊(1 / 2 : ℚ) - x⌋ else ⌊x + 1 / 2⌋

/-- value.quantize(cent) with cent = Decimal('.01') (src line 43): round to
two fractional digits with ties away from zero. -/
def quantize (x : ℚ) : ℚ :=
(roundHalfUpZ (x * 100) : ℚ) / 100

/-- A pool row (id, transaction_date, amount) as passed to the matchers
(src lines 506-509, 564-571, 475). -/
abbrev PoolTxn : Type := ℕ × ℤ × ℚ

/-- sum(Decimal(trans[2]) for trans in combo) (src lines 794, 819). -/
def comboSum (combo : List PoolTxn) : ℚ :=
(combo.map (fun t => t.2.2)).sum

/-- itertools.combinations(l, r): every length-r subsequence of l, members
in pool order, emitted in lexicographic index order. -/
def combinationsL {α : Type} : List α → ℕ → List (List α)
| _, 0 => [[]]
| [], _ + 1 => []
| x :: xs, r + 1 => (combinationsL xs r).map (fun c => x :: c) ++ combinationsL xs (r + 1)

/-- process_combinations (src lines 812-827): all size-r combinations whose
quantized sum equals the negated discrepancy. -/
def process_combinations (transactions : List PoolTxn) (discrepancy : ℚ) (r : ℕ) :
    List (List PoolTxn) :=
(combinationsL transactions r).filter
  (fun combo => decide (quantize (comboSum combo) = -discrepancy))

/-- find_matching_transactions_serial (src lines 790-797). -/
def find_matching_transactions_serial (transactions : List PoolTxn) (discrepancy : ℚ)
    (r_min r_max : ℕ) : List (List PoolTxn) :=
(List.range' r_min (r_max + 1 - r_min)).flatMap (fun r =>
  (combinationsL transactions r).filter
    (fun combo => decide (quantize (comboSum combo) = -discrepancy)))

/-- find_matching_transactions_parallel (src lines 799-810): one task per
subset size r; task results are collected in submission order, empty results
are dropped, and the rest are flattened. -/
def find_matching_transactions_parallel (transactions : List PoolTxn) (discrepancy : ℚ)
    (r_min r_max : ℕ) : List (List PoolTxn) :=
let results := (List.range' r_min (r_max + 1 - r_min)).map
  (fun r => process_combinations transactions discrepancy r)
let valid := results.filter (fun l => !l.isEmpty)
valid.flatMap (fun l => l)

/-- find_matching_transactions (src lines 773-788): None for an empty pool;
otherwise resolve the r_max default to the pool size, count the combinations
and dispatch serial below 10000 of them, parallel from 10000 up. -/
def find_matching_transactions (transactions : List PoolTxn) (discrepancy : ℚ)
    (r_min : ℕ) (r_max : Option ℕ) : Option (List (List PoolTxn)) :=
if transactions.length < 1 then none
else
  let rmax := r_max.getD transactions.length
  let num_combinations :=
    ((List.range' r_min (rmax + 1 - r_min)).map
      (fun r => Nat.choose transactions.length r)).sum
  if num_combinations < 10000 then
    some (find_matching_transactions_serial transactions discrepancy r_min rmax)
  else
    some (find_matching_transactions_parallel transactions discrepancy r_min rmax)

/-- Python truthiness of the matcher result: None (empty pool) and the empty
list both mean "no matches". -/
def resultList (o : Option (List (List PoolTxn))) : List (List PoolTxn) :=
o.getD []

/-- estimate_processing_time (src lines 730-745).  Returns the pair
(estimated_time, combinations_count); r_max = none is the default that is
resolved to num_transactions. -/
def estimate_processing_time (num_transactions : ℕ) (r_min : ℕ) (r_max : Option ℕ)
    (time_per_combination : ℚ) : ℚ × ℕ :=
(((((List.range' r_min ((r_max.getD num_transactions) + 1 - r_min)).map
      (fun r => Nat.choose num_transactions r)).sum : ℕ) : ℚ) * time_per_combination,
 ((List.range' r_min ((r_max.getD num_transactions) + 1 - r_min)).map
    (fun r => Nat.choose num_transactions r)).sum)

/-- combinationsL agrees (as a set) with Mathlib's sublistsLen. -/
lemma combinationsL_mem_sublistsLen {α : Type} :
    ∀ (l : List α) (r : ℕ) (c : List α),
      c ∈ combinationsL l r ↔ c ∈ List.sublistsLen r l := by
  intro l
  induction l with
  | nil =>
    intro r c
    cases r <;> simp [combinationsL]
  | cons x xs ih =>
    intro r c
    cases r with
    | zero => simp [combinationsL]
    | succ n =>
      simp only [combinationsL, List.sublistsLen_succ_cons, List.mem_append,
        List.mem_map, ih]
      constructor
      · rintro (⟨a, ha, rfl⟩ | h2)
        · exact Or.inr ⟨a, ha, rfl⟩
        · exact Or.inl h2
      · rintro (h1 | ⟨a, ha, rfl⟩)
        · exact Or.inr h1
        · exact Or.inl ⟨a, ha, rfl⟩

/-- Membership characterization for combinationsL: exactly the length-r
subsequences of the pool. -/
lemma mem_combinationsL {α : Type} (l : List α) (r : ℕ) (c : List α) :
    c ∈ combinationsL l r ↔ List.Sublist c l ∧ c.length = r := by
  rw [combinationsL_mem_sublistsLen, List.mem_sublistsLen]

lemma mem_range'_iff : ∀ (n s m : ℕ), m ∈ List.range' s n ↔ s ≤ m ∧ m < s + n := by
  intro n
  induction n with
  | zero => intro s m; simp [List.range']
  | succ k ih =>
    intro s m
    simp only [List.range', List.mem_cons, ih]
    omega

/-- Membership characterization for the serial matcher. -/
lemma mem_find_serial (ts : List PoolTxn) (d : ℚ) (rmin rmax : ℕ) (c : List PoolTxn) :
    c ∈ find_matching_transactions_serial ts d rmin rmax ↔
      List.Sublist c ts ∧ rmin ≤ c.length ∧ c.length ≤ rmax ∧
        quantize (comboSum c) = -d := by
  unfold find_matching_transactions_serial
  simp only [List.mem_flatMap, List.mem_filter, mem_range'_iff, mem_combinationsL,
    decide_eq_true_eq]
  constructor
  · rintro ⟨r, hr, ⟨hsub, hlen⟩, hq⟩
    refine ⟨hsub, ?_, ?_, hq⟩ <;> omega
  · rintro ⟨hsub, h1, h2, hq⟩
    exact ⟨c.length, by omega, ⟨hsub, rfl⟩, hq⟩

lemma flatMap_map_filter_nonempty {α β : Type} (f : α → List β) :
    ∀ (R : List α),
      (((R.map f).filter (fun l => !l.isEmpty)).flatMap (fun l => l)) = R.flatMap f := by
  intro R
  induction R with
  | nil => rfl
  | cons r t ih =>
    cases hfr : f r <;>
      simp only [List.map_cons, List.filter_cons, hfr, List.isEmpty_cons,
        List.isEmpty_nil, Bool.not_true, Bool.not_false, List.flatMap_cons, ih,
        List.nil_append, if_true, if_false, List.cons_append]
    · simp [List.flatMap_cons, ← ih, hfr]

/-- The parallel matcher computes exactly the serial matcher's list. -/
lemma parallel_eq_serial (ts : List PoolTxn) (d : ℚ) (rmin rmax : ℕ) :
    find_matching_transactions_parallel ts d rmin rmax =
      find_matching_transactions_serial ts d rmin rmax := by
  unfold find_matching_transactions_parallel find_matching_transactions_serial
  rw [flatMap_map_filter_nonempty]
  rfl

/-- C1: soundness and completeness of the collect-all search.  A combination
is returned by find_matching_transactions (pool, target, r_min, r_max) iff it
is a subsequence of the pool of size between r_min and r_max whose
cent-quantized amount-sum equals the negated target.  (r_min is at least 1,
matching the operation's signature; the wrapper returns None on an empty
pool, which resultList reads as the empty match list.) -/
theorem find_matching_transactions_sound_complete :
    ∀ (pool : List PoolTxn) (target : ℚ) (r_min r_max : ℕ), 1 ≤ r_min →
      ∀ c, c ∈ resultList (find_matching_transactions pool target r_min (some r_max)) ↔
        (List.Sublist c pool ∧ r_min ≤ c.length ∧ c.length ≤ r_max ∧
          quantize (comboSum c) = -target) := by
  intro pool target r_min r_max hmin c
  cases pool with
  | nil =>
    constructor
    · intro h
      simp [find_matching_transactions, resultList] at h
    · rintro ⟨hsub, h1, _, _⟩
      rw [List.sublist_nil] at hsub
      subst hsub
      simp only [List.length_nil] at h1
      omega
  | cons p ps =>
    have hlen : ¬ ((p :: ps).length < 1) := by simp
    unfold find_matching_transactions
    rw [if_neg hlen]
    simp only [Option.getD_some]
    split
    · rw [resultList, Option.getD_some, mem_find_serial]
    · rw [resultList, Option.getD_some, parallel_eq_serial, mem_find_serial]

/-- C1 witness: the theorem applied to the two-element pool
[(1, 0, 5), (2, 0, 3)] with target -5, sizes 1..2, and the singleton
combination [(1, 0, 5)], whose quantized sum 5.00 equals the negated
target. -/
theorem find_matching_transactions_sound_complete_witness :
    [((1 : ℕ), (0 : ℤ), (5 : ℚ))] ∈
        resultList (find_matching_transactions
          [(1, 0, (5 : ℚ)), (2, 0, (3 : ℚ))] (-5) 1 (some 2)) ↔
      (List.Sublist [((1 : ℕ), (0 : ℤ), (5 : ℚ))] [(1, 0, (5 : ℚ)), (2, 0, (3 : ℚ))] ∧
        1 ≤ [((1 : ℕ), (0 : ℤ), (5 : ℚ))].length ∧
        [((1 : ℕ), (0 : ℤ), (5 : ℚ))].length ≤ 2 ∧
        quantize (comboSum [((1 : ℕ), (0 : ℤ), (5 : ℚ))]) = -(-5)) :=
  find_matching_transactions_sound_complete
    [(1, 0, (5 : ℚ)), (2, 0, (3 : ℚ))] (-5) 1 2 (by decide) [(1, 0, (5 : ℚ))]

/-- C3: the parallel matcher (one task per subset size r) returns exactly the
serial matcher's combinations on every input; here even the outer order
coincides, so in particular the result sets are identical. -/
theorem find_matching_transactions_parallel_matches_serial :
    ∀ (ts : List PoolTxn) (d : ℚ) (rmin rmax : ℕ),
      find_matching_transactions_parallel ts d rmin rmax =
        find_matching_transactions_serial ts d rmin rmax ∧
      (∀ c, c ∈ find_matching_transactions_parallel ts d rmin rmax ↔
        c ∈ find_matching_transactions_serial ts d rmin rmax) := by
  intro ts d rmin rmax
  refine ⟨parallel_eq_serial ts d rmin rmax, fun c => ?_⟩
  rw [parallel_eq_serial]

lemma range'_map_sum (f : ℕ → ℕ) :
    ∀ (k a : ℕ), ((List.range' a k).map f).sum = ∑ r ∈ Finset.Ico a (a + k), f r := by
  intro k
  induction k with
  | zero => intro a; simp
  | succ n ih =>
    intro a
    rw [Finset.sum_eq_sum_Ico_succ_bot (by omega : a < a + (n + 1))]
    have harith : a + 1 + n = a + (n + 1) := by omega
    simp only [List.range', List.map_cons, List.sum_cons, ih (a + 1), harith]

lemma sum_Icc_one_choose (n : ℕ) : (∑ r ∈ Finset.Icc 1 n, Nat.choose n r) = 2 ^ n - 1 := by
  have h0 : (∑ m ∈ Finset.range (n + 1), Nat.choose n m) = 2 ^ n := Nat.sum_range_choose n
  rw [Finset.range_eq_Ico, Finset.sum_eq_sum_Ico_succ_bot (by omega : 0 < n + 1),
    Nat.Ico_succ_right, Nat.choose_zero_right, Nat.zero_add] at h0
  omega

/-- C7: the combination count returned by estimate_processing_time (n, r_min,
r_max) is the sum of binomial coefficients C(n, r) for r from r_min to r_max
(r_max defaulting to n), and with r_min = 1 and the default r_max it equals
2^n - 1 (proved for every n, hence in particular for n at least 1). -/
theorem estimate_processing_time_combination_count :
    ∀ (n r_min : ℕ) (r_max : Option ℕ) (tpc : ℚ),
      (estimate_processing_time n r_min r_max tpc).2 =
          ∑ r ∈ Finset.Icc r_min (r_max.getD n), Nat.choose n r ∧
        (estimate_processing_time n 1 none tpc).2 = 2 ^ n - 1 := by
  intro n r_min r_max tpc
  have hgen : ∀ (a : ℕ) (b : Option ℕ),
      (estimate_processing_time n a b tpc).2 =
        ∑ r ∈ Finset.Icc a (b.getD n), Nat.choose n r := by
    intro a b
    have hset : Finset.Ico a (a + ((b.getD n) + 1 - a)) = Finset.Icc a (b.getD n) := by
      ext r
      simp only [Finset.mem_Ico, Finset.mem_Icc]
      omega
    unfold estimate_processing_time
    dsimp only
    rw [range'_map_sum, hset]
  refine ⟨hgen r_min r_max, ?_⟩
  rw [hgen 1 none]
  exact sum_Icc_one_choose n

/-- C4 counterexample: under the script's rounding mode (ROUND_HALF_UP =
ties away from zero), quantize (-1.005) is -1.01, not -1.00, so the claimed
pair of equalities is false at the concrete input -1.005. -/
theorem quantize_negative_tie_counterexample :
    ¬ (quantize (1.005 : ℚ) = 1.01 ∧ quantize (-1.005 : ℚ) = -1.00) := by
  with_unfolding_all decide

/-- C4 amended: cent-quantization rounds ties away from zero on both signs:
quantize (1.005) = 1.01 and quantize (-1.005) = -1.01. -/
theorem quantize_ties_away_from_zero :
    quantize (1.005 : ℚ) = 1.01 ∧ quantize (-1.005 : ℚ) = -1.01 := by
  with_unfolding_all decide

/-- A row of the transactions table (src lines 96-109).  The display-only
columns merchant, category, original_statement and import_date play no role
in the reconciliation logic and are omitted. -/
structure Txn where
  id : ℕ
  transaction_date : ℤ
  account : String
  amount : ℚ
  reconciled : Bool
  reconcile_date : Option ℤ
deriving DecidableEq

/-- A row of the account_balances table (src lines 112-118):
(account, last_reconciled_balance, last_reconciled_date). -/
abbrev BalanceRow : Type := String × ℚ × ℤ

/-- The reconciliation database state. -/
structure DB where
  transactions : List Txn
  account_balances : List BalanceRow
deriving DecidableEq

/-- The (id, transaction_date, amount) projection of a full row
(src line 475). -/
def toTriple (t : Txn) : PoolTxn :=
(t.id, t.transaction_date, t.amount)

/-- SELECT last_reconciled_balance, last_reconciled_date FROM account_balances
WHERE account = ? (src line 456). -/
def lookupBalance (db : DB) (account : String) : Option (ℚ × ℤ) :=
(db.account_balances.find? (fun row => row.1 == account)).map (fun row => row.2)

/-- SELECT * FROM transactions WHERE account = ? AND reconciled = 0
(src line 473). -/
def unreconciledOf (db : DB) (account : String) : List Txn :=
db.transactions.filter (fun t => t.account == account && !t.reconciled)

/-- The discrepancy of src lines 471-479: (current_balance minus
last_reconciled_balance) minus the sum of unreconciled amounts, quantized to
the cent. -/
def computeDiscrepancy (db : DB) (account : String)
    (last_reconciled_balance current_balance : ℚ) : ℚ :=
quantize ((current_balance - last_reconciled_balance) -
  ((unreconciledOf db account).map (fun t => t.amount)).sum)

/-- UPDATE transactions SET reconciled = 1, reconcile_date = ? WHERE
account = ? AND reconciled = 0 (src lines 488-489). -/
def markAllUnreconciled (db : DB) (account : String) (d : ℤ) : DB :=
{ db with transactions := db.transactions.map (fun t =>
    if t.account == account && !t.reconciled then
      { t with reconciled := true, reconcile_date := some d } else t) }

/-- UPDATE account_balances SET last_reconciled_balance = ?,
last_reconciled_date = ? WHERE account = ? (src lines 490-491, 865-866,
913-914). -/
def setCheckpoint (db : DB) (account : String) (bal : ℚ) (d : ℤ) : DB :=
{ db with account_balances := db.account_balances.map (fun row =>
    if row.1 == account then (row.1, bal, d) else row) }

/-- The per-transaction disposition answer read at src line 889: (d)elete,
previously (r)econciled, and anything else counts as exclude. -/
inductive Disposition where
  | exclude
  | delete
  | reconcile
deriving DecidableEq

/-- UPDATE transactions SET reconciled = 1, reconcile_date = ? WHERE
account = ? AND reconciled = 0 AND id NOT IN (exclude_ids)
(src lines 863-864 and 910-911). -/
def reconcileExceptIds (txns : List Txn) (account : String)
    (exclude_ids : List ℕ) (d : ℤ) : List Txn :=
txns.map (fun t =>
  if t.account == account && !t.reconciled && !(exclude_ids.contains t.id) then
    { t with reconciled := true, reconcile_date := some d } else t)

/-- process_potential_matches (src lines 829-920).  The interactive inputs
are the parsed combination selection sel (int(input(..)) with a parse failure
already mapped to -1, src lines 871-875) and the per-id disposition answers.
Returns (resolved, new state). -/
def process_potential_matches (db : DB) (account : String)
    (potential_matches : List (List PoolTxn)) (current_balance_date : ℤ)
    (current_balance : ℚ) (display_only : Bool) (sel : ℤ)
    (dispo : ℕ → Disposition) : Bool × DB :=
if display_only then
  -- src 858-868: take the first combination, mark everything else on the
  -- account reconciled, and overwrite the checkpoint with the quantized
  -- balance (callers only pass a single-combination list here).
  let exclude_ids := (potential_matches.headD []).map (fun t => t.1)
  let db1 := { db with
    transactions :=
      reconcileExceptIds db.transactions account exclude_ids current_balance_date }
  (true, setCheckpoint db1 account (quantize current_balance) current_balance_date)
else if sel = -1 then
  -- src 877-879: skip/reject or unparseable input: no mutation.
  (false, db)
else if 1 ≤ sel ∧ sel ≤ (potential_matches.length : ℤ) then
  -- src 881-917: apply the chosen dispositions, then reconcile everything
  -- else on the account and overwrite the checkpoint.
  let selected_combo := potential_matches.getD (sel - 1).toNat []
  let selected_ids := selected_combo.map (fun t => t.1)
  let delete_ids := selected_ids.filter (fun i => dispo i == Disposition.delete)
  let reconcile_ids := selected_ids.filter (fun i => dispo i == Disposition.reconcile)
  let exclude_ids := selected_ids.filter (fun i => dispo i == Disposition.exclude)
  let db1 := if delete_ids.isEmpty then db
    else { db with
           transactions :=
             db.transactions.filter (fun t => !(delete_ids.contains t.id)) }
  let db2 := if reconcile_ids.isEmpty then db1
    else { db1 with
           transactions := db1.transactions.map (fun t =>
             if reconcile_ids.contains t.id then
               { t with
                 reconciled := true, reconcile_date := some current_balance_date }
             else t) }
  let db3 := if exclude_ids.isEmpty then db2
    else { db2 with
           transactions :=
             reconcileExceptIds db2.transactions account exclude_ids
               current_balance_date }
  (true, setCheckpoint db3 account (quantize current_balance) current_balance_date)
else
  -- src 918-920: out-of-range selection: no mutation.
  (false, db)

/-- The extensive-search menu answer (src lines 621-628): search (a)ll,
(l)imited sets, or anything else to skip. -/
inductive MenuChoice where
  | searchAll
  | limit
  | skip
deriving DecidableEq

/-- One answer in the limit loop (src lines 661-668): search (a)ll, a digit,
or anything else to stop. -/
inductive LimitChoice where
  | all
  | num (k : ℕ)
  | quit
deriving DecidableEq

/-- One round of interactive input inside the limit loop: the menu answer
plus the process_potential_matches inputs used if a search finds matches. -/
structure LimitStep where
  choice : LimitChoice
  sel : ℤ
  dispo : ℕ → Disposition

/-- All interactive answers one account's reconciliation may consume, one
field per prompt site of src lines 497-718. -/
structure AccountOracle where
  proceed5 : Bool
  sel5 : ℤ
  dispo5 : ℕ → Disposition
  selExact : ℤ
  dispoExact : ℕ → Disposition
  proceedRecent : Bool
  selRecent : ℤ
  dispoRecent : ℕ → Disposition
  menuChoice : MenuChoice
  selAll : ℤ
  dispoAll : ℕ → Disposition
  limitSteps : List LimitStep

/-- The reconciliation_summary result strings (src lines 494, 537, 547, 559,
598, 616, 637, 688, 702, 705, 710, 717), as tags; none models a result the
source never sets. -/
inductive ResTag where
  | fullyReconciled
  | pendingRec
  | simpleRec
  | exactRec
  | allRec
  | extAllRec
  | limitRec
  | notRecIter
  | notRec
deriving DecidableEq

/-- One search action of the orchestrator: each constructor records an
invocation of find_matching_transactions with the pool it was handed (or the
size limits, for the limit loop), and exactCheck records the single-candidate
exact-match scan of src line 551. -/
inductive TierEvent where
  | fiveDay (pool : List PoolTxn)
  | exactCheck
  | recentSurrounding (pool : List PoolTxn)
  | fullSearch
  | limitSearch (rmin rmax : ℕ)
deriving DecidableEq

/-- The searches that run strictly after the exact-match check in the
source: the widened-window tier and the exhaustive/limited tiers. -/
def isWideSearch : TierEvent → Bool
| TierEvent.recentSurrounding _ => true
| TierEvent.fullSearch => true
| TierEvent.limitSearch _ _ => true
| _ => false

/-- reasonable_time_threshold (src line 57). -/
def reasonable_time_threshold : ℚ := 10

/-- The shared proceed decision of src lines 516-527 and 578-588:
auto-proceed when the estimate is below the threshold (and nonzero, or the
pool is small); otherwise the user's yes/no answer decides. -/
def proceedDecision (est_time : ℚ) (n : ℕ) (userAnswer : Bool) : Bool :=
if est_time < reasonable_time_threshold ∧ (0 < est_time ∨ n < 10) then true
else userAnswer

/-- The simple-search pool (src lines 506-509): transactions of the account
dated within five days of the balance date.  NOTE: faithfully to the source,
this query has no reconciled = 0 filter. -/
def last_5_days_transactions (db : DB) (account : String)
    (current_balance_date : ℤ) : List PoolTxn :=
(db.transactions.filter (fun t =>
  t.account == account &&
    decide (current_balance_date - 5 ≤ t.transaction_date))).map toTriple

/-- The widened pool (src lines 564-571): transactions of the account within
the five-day window or within three days of the last reconciled date, with
reconciled = 0. -/
def recent_and_surrounding_transactions (db : DB) (account : String)
    (current_balance_date last_reconciled_date : ℤ) : List PoolTxn :=
(db.transactions.filter (fun t =>
  t.account == account &&
    (decide (current_balance_date - 5 ≤ t.transaction_date) ||
      (decide (last_reconciled_date - 3 ≤ t.transaction_date) &&
        decide (t.transaction_date ≤ last_reconciled_date + 3))) &&
    !t.reconciled)).map toTriple

/-- The simple-searching tier over the five-day pool (src lines 504-548).
Returns (terminal outcome if the account flow ends here, threaded state,
emitted search events). -/
def stage5 (db : DB) (account : String) (discrepancy : ℚ)
    (current_balance : ℚ) (current_balance_date : ℤ) (tpc : ℚ)
    (o : AccountOracle) : Option (DB × Option ResTag) × DB × List TierEvent :=
let pool := last_5_days_transactions db account current_balance_date
let est := estimate_processing_time pool.length 1 none tpc
let proceed := proceedDecision est.1 pool.length o.proceed5
if proceed then
  let pm := resultList (find_matching_transactions pool discrepancy 1 none)
  let ev := [TierEvent.fiveDay pool]
  if pm.isEmpty then (none, db, ev)
  else if pm.length = 1 then
    -- src 532-538: a single match is applied display-only (auto-exclusion);
    -- on the (unreachable) False return the flow would fall through.
    let r := process_potential_matches db account pm current_balance_date
      current_balance true o.sel5 o.dispo5
    if r.1 then (some (r.2, some ResTag.pendingRec), r.2, ev)
    else (none, r.2, ev)
  else
    -- src 539-548: the matcher runs a second time on the same pool, then
    -- the matches are processed interactively; the per-account flow ends
    -- here whether or not the user accepts, and on rejection the summary
    -- result stays unset.
    let pm2 := resultList (find_matching_transactions pool discrepancy 1 none)
    let ev2 := ev ++ [TierEvent.fiveDay pool]
    if pm2.isEmpty then (none, db, ev2)
    else
      let r := process_potential_matches db account pm2 current_balance_date
        current_balance false o.sel5 o.dispo5
      (some (r.2, if r.1 then some ResTag.simpleRec else none), r.2, ev2)
else (none, db, [])

/-- The single candidate list built at src lines 551-556: ALL unreconciled
transactions whose quantized amount equals the negated discrepancy are
wrapped into one combination.  (The source passes the full rows; only the
id, date and amount components are ever used, so the projection is applied
here.) -/
def exact_match_candidates (all_unreconciled : List Txn) (discrepancy : ℚ) :
    List (List PoolTxn) :=
[(all_unreconciled.filter
    (fun t => decide (quantize t.amount = -discrepancy))).map toTriple]

/-- The exact-match check (src lines 550-560); all_unreconciled is the list
captured at src line 473, before the earlier tier ran. -/
def stageExact (db : DB) (all_unreconciled : List Txn) (account : String)
    (discrepancy : ℚ) (current_balance : ℚ) (current_balance_date : ℤ)
    (o : AccountOracle) : Option (DB × Option ResTag) × DB :=
let exact_matches := all_unreconciled.filter
  (fun t => decide (quantize t.amount = -discrepancy))
if exact_matches.isEmpty then (none, db)
else
  let r := process_potential_matches db account
    (exact_match_candidates all_unreconciled discrepancy)
    current_balance_date current_balance false o.selExact o.dispoExact
  if r.1 then (some (r.2, some ResTag.exactRec), r.2) else (none, r.2)

/-- The widened-window tier (src lines 562-599). -/
def stageRecent (db : DB) (account : String) (discrepancy : ℚ)
    (last_reconciled_date : ℤ) (current_balance : ℚ)
    (current_balance_date : ℤ) (tpc : ℚ) (o : AccountOracle) :
    Option (DB × Option ResTag) × DB × List TierEvent :=
let pool := recent_and_surrounding_transactions db account
  current_balance_date last_reconciled_date
let est := estimate_processing_time pool.length 1 none tpc
let proceed := proceedDecision est.1 pool.length o.proceedRecent
if proceed then
  let pm := resultList (find_matching_transactions pool discrepancy 1 none)
  let ev := [TierEvent.recentSurrounding pool]
  if pm.isEmpty then (none, db, ev)
  else
    let r := process_potential_matches db account pm current_balance_date
      current_balance false o.selRecent o.dispoRecent
    if r.1 then (some (r.2, some ResTag.simpleRec), r.2, ev)
    else (none, r.2, ev)
else (none, db, [])

/-- The iterative limited-search loop (src lines 640-706), driven by one
LimitStep per prompt round; an exhausted steps list is read as choosing to
stop.  last_limit starts at 1 (src line 642). -/
def limitLoop (db : DB) (account : String) (discrepancy : ℚ)
    (all_filtered : List PoolTxn) (num_transactions : ℕ)
    (current_balance : ℚ) (current_balance_date : ℤ)
    (steps : List LimitStep) (last_limit : ℕ) :
    DB × Option ResTag × List TierEvent :=
if num_transactions ≤ last_limit then
  -- src 645-647: every combination size already covered; give up.
  (db, some ResTag.notRecIter, [])
else
  match steps with
  | [] => (db, some ResTag.notRecIter, [])
  | step :: rest =>
    match step.choice with
    | LimitChoice.all =>
      -- src 671-672: choosing (a) here only raises the limit; no search
      -- happens before the loop re-checks the limit and gives up.
      limitLoop db account discrepancy all_filtered num_transactions
        current_balance current_balance_date rest num_transactions
    | LimitChoice.num k =>
      if k ≤ last_limit then
        -- src 676-679: the number must exceed the already-searched limit.
        limitLoop db account discrepancy all_filtered num_transactions
          current_balance current_balance_date rest last_limit
      else
        let new_limit := min k num_transactions
        let pm := resultList (find_matching_transactions all_filtered
          discrepancy last_limit (some new_limit))
        let ev := [TierEvent.limitSearch last_limit new_limit]
        if pm.isEmpty then
          let res := limitLoop db account discrepancy all_filtered
            num_transactions current_balance current_balance_date rest new_limit
          (res.1, res.2.1, ev ++ res.2.2)
        else
          let r := process_potential_matches db account pm
            current_balance_date current_balance false step.sel step.dispo
          if r.1 then (r.2, some ResTag.limitRec, ev)
          else
            let res := limitLoop r.2 account discrepancy all_filtered
              num_transactions current_balance current_balance_date rest new_limit
            (res.1, res.2.1, ev ++ res.2.2)
    | LimitChoice.quit => (db, some ResTag.notRecIter, [])

/-- The extensive-searching stage (src lines 601-718), including the final
backstop; all_unreconciled and all_filtered are the lists captured at
src lines 473-475 before the earlier tiers ran. -/
def stageExtensive (db : DB) (all_unreconciled : List Txn)
    (all_filtered : List PoolTxn) (account : String) (discrepancy : ℚ)
    (current_balance : ℚ) (current_balance_date : ℤ) (tpc : ℚ)
    (o : AccountOracle) : DB × Option ResTag × List TierEvent :=
let n := all_unreconciled.length
let est_all := estimate_processing_time n 1 none tpc
if est_all.1 < 10 ∧ (0 < est_all.1 ∨ n < 10) then
  -- src 608-617: cheap enough to search everything automatically; on no
  -- match or rejection the backstop of src lines 714-718 reports failure.
  let pm := resultList (find_matching_transactions all_filtered discrepancy 1 none)
  let ev := [TierEvent.fullSearch]
  if pm.isEmpty then (db, some ResTag.notRec, ev)
  else
    let r := process_potential_matches db account pm current_balance_date
      current_balance false o.selAll o.dispoAll
    if r.1 then (r.2, some ResTag.allRec, ev) else (r.2, some ResTag.notRec, ev)
else
  match o.menuChoice with
  | MenuChoice.searchAll =>
    -- src 630-638, falling to the backstop on no match or rejection.
    let pm := resultList (find_matching_transactions all_filtered discrepancy 1 none)
    let ev := [TierEvent.fullSearch]
    if pm.isEmpty then (db, some ResTag.notRec, ev)
    else
      let r := process_potential_matches db account pm current_balance_date
        current_balance false o.selAll o.dispoAll
      if r.1 then (r.2, some ResTag.extAllRec, ev)
      else (r.2, some ResTag.notRec, ev)
  | MenuChoice.limit =>
    limitLoop db account discrepancy all_filtered n current_balance
      current_balance_date o.limitSteps 1
  | MenuChoice.skip =>
    -- src 708-712.
    (db, some ResTag.notRec, [])

/-- One iteration of the reconcile_accounts per-account loop body from the
discrepancy computation on (src lines 465-718); the checkpoint values and
the account's current balance and date are passed in.  Returns the new
state, the summary result (none when the source leaves it unset), and the
trace of search actions. -/
def processAccount (db : DB) (account : String)
    (last_reconciled_balance : ℚ) (last_reconciled_date : ℤ)
    (current_balance : ℚ) (current_balance_date : ℤ) (tpc : ℚ)
    (o : AccountOracle) : DB × Option ResTag × List TierEvent :=
let all_unreconciled := unreconciledOf db account
let all_filtered := all_unreconciled.map toTriple
let discrepancy := computeDiscrepancy db account last_reconciled_balance current_balance
if discrepancy = 0 then
  -- src 487-495: zero discrepancy: reconcile everything and move the
  -- checkpoint to (current_balance, current_balance_date).
  (setCheckpoint (markAllUnreconciled db account current_balance_date)
      account current_balance current_balance_date,
   some ResTag.fullyReconciled, [])
else
  let s5 := stage5 db account discrepancy current_balance current_balance_date tpc o
  match s5.1 with
  | some out => (out.1, out.2, s5.2.2)
  | none =>
    let sE := stageExact s5.2.1 all_unreconciled account discrepancy
      current_balance current_balance_date o
    match sE.1 with
    | some out => (out.1, out.2, s5.2.2 ++ [TierEvent.exactCheck])
    | none =>
      let sR := stageRecent sE.2 account discrepancy last_reconciled_date
        current_balance current_balance_date tpc o
      match sR.1 with
      | some out => (out.1, out.2, s5.2.2 ++ [TierEvent.exactCheck] ++ sR.2.2)
      | none =>
        let sX := stageExtensive sR.2.1 all_unreconciled all_filtered account
          discrepancy current_balance current_balance_date tpc o
        (sX.1, sX.2.1, s5.2.2 ++ [TierEvent.exactCheck] ++ sR.2.2 ++ sX.2.2)

/-- First-occurrence deduplication (SELECT DISTINCT account, src line 451). -/
def dedupFirstAux : List String → List String → List String
| [], _ => []
| a :: rest, seen =>
  if seen.contains a then dedupFirstAux rest seen
  else a :: dedupFirstAux rest (a :: seen)

def distinctAccounts (db : DB) : List String :=
dedupFirstAux (db.transactions.map (fun t => t.account)) []

/-- The reconcile_accounts account loop (src lines 454-718).  A missing
checkpoint row aborts the whole run (print and sys.exit(1), src lines
460-463), which the Bool component records.  Returns the final state, the
per-account summary results in processing order, and the exit flag. -/
def reconcileLoop (db : DB) (accounts : List String)
    (balanceInfo : String → ℚ × ℤ) (tpc : ℚ)
    (oracles : String → AccountOracle) :
    DB × List (String × Option ResTag) × Bool :=
match accounts with
| [] => (db, [], false)
| a :: rest =>
  match lookupBalance db a with
  | none => (db, [], true)
  | some lb_ld =>
    let cb_cd := balanceInfo a
    let r := processAccount db a lb_ld.1 lb_ld.2 cb_cd.1 cb_cd.2 tpc (oracles a)
    let res := reconcileLoop r.1 rest balanceInfo tpc oracles
    (res.1, (a, r.2.1) :: res.2.1, res.2.2)

/-- reconcile_accounts (src lines 444-728), with the current balances of
balance_df and the interactive answers supplied as functions of the
account. -/
def reconcile_accounts (db : DB) (balanceInfo : String → ℚ × ℤ) (tpc : ℚ)
    (oracles : String → AccountOracle) :
    DB × List (String × Option ResTag) × Bool :=
reconcileLoop db (distinctAccounts db) balanceInfo tpc oracles

/-- A fixed set of interactive answers: decline every optional search,
answer 0 to every selection, exclude every transaction, skip the menu. -/
def oracleDefault : AccountOracle :=
⟨false, 0, fun _ => Disposition.exclude, 0, fun _ => Disposition.exclude,
 false, 0, fun _ => Disposition.exclude, MenuChoice.skip, 0,
 fun _ => Disposition.exclude, []⟩

lemma find?_map_setRow :
    ∀ (bals : List BalanceRow) (a : String) (b : ℚ) (d : ℤ),
      (bals.find? (fun row => row.1 == a)).isSome →
      (((bals.map (fun row => if row.1 == a then (row.1, b, d) else row)).find?
          (fun row => row.1 == a)).map (fun row => row.2)) = some (b, d) := by
  intro bals
  induction bals with
  | nil => intro a b d h; simp at h
  | cons row rest ih =>
    intro a b d h
    by_cases hb : (row.1 == a) = true
    · rw [List.map_cons, if_pos hb]
      have hpred : (((row.1, b, d) : BalanceRow).1 == a) = true := hb
      simp only [List.find?_cons, hpred]
      rfl
    · have hr : (row.1 == a) = false := by
        revert hb; cases (row.1 == a) <;> simp
      rw [List.map_cons, if_neg hb]
      simp only [List.find?_cons, hr] at h ⊢
      exact ih a b d h

/-- Overwriting an existing checkpoint row makes the lookup return the new
(balance, date) pair. -/
lemma lookupBalance_setCheckpoint (db : DB) (a : String) (b : ℚ) (d : ℤ)
    (h : (lookupBalance db a).isSome) :
    lookupBalance (setCheckpoint db a b d) a = some (b, d) := by
  cases db with
  | mk txns bals =>
    have h' : (bals.find? (fun row => row.1 == a)).isSome := by
      unfold lookupBalance at h
      simpa using h
    exact find?_map_setRow bals a b d h'

/-- Scenario-A style account: checkpoint 100, balance 150, unreconciled
transactions +50.00 and +0.00. -/
def dbScenarioA : DB :=
⟨[⟨1, 5, "A", 50, false, none⟩, ⟨2, 6, "A", 0, false, none⟩], [("A", 100, 0)]⟩

/-- C2: the orchestrator's discrepancy is
quantize ((current_balance - last_reconciled_balance) - sum of unreconciled
amounts), and when it is 0.00 every unreconciled transaction of the account
is marked reconciled with reconcile_date = current_balance_date and the
checkpoint row is overwritten with (current_balance, current_balance_date). -/
theorem discrepancy_zero_reconciles_all :
    ∀ (db : DB) (account : String) (lb : ℚ) (ld : ℤ) (cb : ℚ) (cd : ℤ)
      (tpc : ℚ) (o : AccountOracle),
      computeDiscrepancy db account lb cb =
          quantize ((cb - lb) -
            ((db.transactions.filter
                (fun t => t.account == account && !t.reconciled)).map
              (fun t => t.amount)).sum) ∧
        ((lookupBalance db account).isSome →
          computeDiscrepancy db account lb cb = 0 →
          (processAccount db account lb ld cb cd tpc o).1.transactions =
              db.transactions.map (fun t =>
                if t.account == account && !t.reconciled then
                  { t with reconciled := true, reconcile_date := some cd }
                else t) ∧
            lookupBalance (processAccount db account lb ld cb cd tpc o).1 account =
              some (cb, cd) ∧
            (processAccount db account lb ld cb cd tpc o).2.1 =
              some ResTag.fullyReconciled) := by
  intro db account lb ld cb cd tpc o
  refine ⟨rfl, ?_⟩
  intro hsome hzero
  unfold processAccount
  dsimp only
  rw [if_pos hzero]
  refine ⟨rfl, ?_, rfl⟩
  exact lookupBalance_setCheckpoint (markAllUnreconciled db account cd) account cb cd hsome

/-- C2 witness: the theorem at the Scenario-A account (checkpoint 100.00,
current balance 150.00 on day 10, unreconciled +50.00 and +0.00, hence
discrepancy 0.00). -/
theorem discrepancy_zero_reconciles_all_witness :
    (processAccount dbScenarioA "A" 100 0 150 10 0 oracleDefault).1.transactions =
        dbScenarioA.transactions.map (fun t =>
          if t.account == "A" && !t.reconciled then
            { t with reconciled := true, reconcile_date := some 10 }
          else t) ∧
      lookupBalance (processAccount dbScenarioA "A" 100 0 150 10 0 oracleDefault).1 "A" =
        some (150, 10) ∧
      (processAccount dbScenarioA "A" 100 0 150 10 0 oracleDefault).2.1 =
        some ResTag.fullyReconciled :=
  (discrepancy_zero_reconciles_all dbScenarioA "A" 100 0 150 10 0 oracleDefault).2
    (by with_unfolding_all decide) (by with_unfolding_all decide)

/-- C9: process_potential_matches is all-or-nothing.  When it returns False
the state is exactly the input state (in particular on skip, reject, or an
out-of-range selection, which are exactly the False cases in interactive
mode); when it returns True the checkpoint row of the account has been
overwritten with the quantized balance and the balance date. -/
theorem process_potential_matches_atomic :
    ∀ (db : DB) (account : String) (pm : List (List PoolTxn)) (cd : ℤ)
      (cb : ℚ) (donly : Bool) (sel : ℤ) (dispo : ℕ → Disposition),
      ((process_potential_matches db account pm cd cb donly sel dispo).1 = false →
          (process_potential_matches db account pm cd cb donly sel dispo).2 = db) ∧
        (donly = false →
          ((process_potential_matches db account pm cd cb donly sel dispo).1 = true ↔
            (1 ≤ sel ∧ sel ≤ (pm.length : ℤ)))) ∧
        ((process_potential_matches db account pm cd cb donly sel dispo).1 = true →
          (process_potential_matches db account pm cd cb donly sel dispo).2.account_balances =
            db.account_balances.map (fun row =>
              if row.1 == account then (row.1, quantize cb, cd) else row)) := by
  intro db account pm cd cb donly sel dispo
  unfold process_potential_matches
  cases donly with
  | true =>
    refine ⟨?_, ?_, ?_⟩
    · intro h; simp at h
    · intro h; simp at h
    · intro _; rfl
  | false =>
    simp only [Bool.false_eq_true, if_false]
    by_cases h2 : sel = -1
    · rw [if_pos h2]
      refine ⟨fun _ => rfl, ?_, ?_⟩
      · intro _
        constructor
        · intro h; simp at h
        · rintro ⟨ha, _⟩; omega
      · intro h; simp at h
    · rw [if_neg h2]
      by_cases h3 : 1 ≤ sel ∧ sel ≤ (pm.length : ℤ)
      · rw [if_pos h3]
        refine ⟨?_, ?_, ?_⟩
        · intro h; simp at h
        · intro _; exact ⟨fun _ => h3, fun _ => rfl⟩
        · intro _
          dsimp only
          split_ifs <;> rfl
      · rw [if_neg h3]
        refine ⟨fun _ => rfl, ?_, ?_⟩
        · intro _
          constructor
          · intro h; simp at h
          · intro h; exact absurd h h3
        · intro h; simp at h

/-- C9 witness: the theorem at a one-transaction account with an out-of-range
selection 0, so the call returns False and the state is untouched. -/
theorem process_potential_matches_atomic_witness :
    ((process_potential_matches dbScenarioA "A" [[(1, 5, 50)]] 10 7 false 0
          (fun _ => Disposition.exclude)).1 = false →
        (process_potential_matches dbScenarioA "A" [[(1, 5, 50)]] 10 7 false 0
          (fun _ => Disposition.exclude)).2 = dbScenarioA) ∧
      (false = false →
        ((process_potential_matches dbScenarioA "A" [[(1, 5, 50)]] 10 7 false 0
            (fun _ => Disposition.exclude)).1 = true ↔
          (1 ≤ (0 : ℤ) ∧ (0 : ℤ) ≤ (([[((1 : ℕ), (5 : ℤ), (50 : ℚ))]]).length : ℤ)))) ∧
      ((process_potential_matches dbScenarioA "A" [[(1, 5, 50)]] 10 7 false 0
          (fun _ => Disposition.exclude)).1 = true →
        (process_potential_matches dbScenarioA "A" [[(1, 5, 50)]] 10 7 false 0
            (fun _ => Disposition.exclude)).2.account_balances =
          dbScenarioA.account_balances.map (fun row =>
            if row.1 == "A" then (row.1, quantize 7, 10) else row)) :=
  process_potential_matches_atomic dbScenarioA "A" [[(1, 5, 50)]] 10 7 false 0
    (fun _ => Disposition.exclude)

/-- Every event a run of the five-day tier emits is a fiveDay search. -/
lemma stage5_events_fiveDay :
    ∀ (db : DB) (account : String) (d cb : ℚ) (cd : ℤ) (tpc : ℚ)
      (o : AccountOracle) (e : TierEvent),
      e ∈ (stage5 db account d cb cd tpc o).2.2 →
        ∃ p, e = TierEvent.fiveDay p := by
  intro db account d cb cd tpc o e he
  unfold stage5 at he
  dsimp only at he
  split_ifs at he <;>
    simp only [List.mem_append, List.mem_singleton, List.not_mem_nil,
      or_self, or_false, false_or] at he <;>
    first
      | exact he.elim
      | exact ⟨_, he⟩

/-- Trace shape of processAccount: the trace is empty, or consists of
five-day-tier events only, or is the five-day-tier events followed by the
exact check and then the later tiers. -/
lemma processAccount_trace_cases :
    ∀ (db : DB) (account : String) (lb : ℚ) (ld : ℤ) (cb : ℚ) (cd : ℤ)
      (tpc : ℚ) (o : AccountOracle),
      (processAccount db account lb ld cb cd tpc o).2.2 = [] ∨
        (processAccount db account lb ld cb cd tpc o).2.2 =
          (stage5 db account (computeDiscrepancy db account lb cb) cb cd tpc o).2.2 ∨
        ∃ B, (processAccount db account lb ld cb cd tpc o).2.2 =
          (stage5 db account (computeDiscrepancy db account lb cb) cb cd tpc o).2.2 ++
            TierEvent.exactCheck :: B := by
  intro db account lb ld cb cd tpc o
  unfold processAccount
  dsimp only
  split
  · exact Or.inl rfl
  · split
    · exact Or.inr (Or.inl rfl)
    · split
      · exact Or.inr (Or.inr ⟨[], rfl⟩)
      · split
        · exact Or.inr (Or.inr ⟨_, by dsimp only; rw [List.append_assoc]; rfl⟩)
        · exact Or.inr (Or.inr ⟨_, by
            dsimp only; rw [List.append_assoc, List.append_assoc]; rfl⟩)

lemma wide_preceded_by_exact_aux (A B : List TierEvent) (j : ℕ) (e : TierEvent)
    (hA : ∀ x ∈ A, isWideSearch x = false)
    (hj : (A ++ TierEvent.exactCheck :: B)[j]? = some e)
    (he : isWideSearch e = true) :
    ∃ i, i < j ∧
      (A ++ TierEvent.exactCheck :: B)[i]? = some TierEvent.exactCheck := by
  refine ⟨A.length, ?_, ?_⟩
  · rcases Nat.lt_trichotomy j A.length with hlt | heq | hgt
    · exfalso
      rw [List.getElem?_append, if_pos hlt] at hj
      rcases List.getElem?_eq_some_iff.mp hj with ⟨hb, hget⟩
      have hmem : e ∈ A := hget ▸ List.getElem_mem hb
      have hfalse := hA e hmem
      rw [hfalse] at he
      exact absurd he (by decide)
    · exfalso
      subst heq
      rw [List.getElem?_append, if_neg (lt_irrefl _), Nat.sub_self] at hj
      simp only [List.getElem?_cons_zero, Option.some.injEq] at hj
      rw [← hj] at he
      exact absurd he (by decide)
    · exact hgt
  · rw [List.getElem?_append, if_neg (lt_irrefl _), Nat.sub_self]
    simp

/-- C5 amended: in every per-account run, any widened-window, exhaustive or
size-limited combinatorial search event is strictly preceded in the trace by
the exact single-transaction match check; only the five-day recency-window
combinatorial tier (and nothing else) can run before that check. -/
theorem exact_check_precedes_wide_tiers :
    ∀ (db : DB) (account : String) (lb : ℚ) (ld : ℤ) (cb : ℚ) (cd : ℤ)
      (tpc : ℚ) (o : AccountOracle) (j : ℕ) (e : TierEvent),
      ((processAccount db account lb ld cb cd tpc o).2.2)[j]? = some e →
      isWideSearch e = true →
      ∃ i, i < j ∧
        ((processAccount db account lb ld cb cd tpc o).2.2)[i]? =
          some TierEvent.exactCheck := by
  intro db account lb ld cb cd tpc o j e hj he
  rcases processAccount_trace_cases db account lb ld cb cd tpc o with h0 | h5 | ⟨B, heq⟩
  · exfalso
    rw [h0] at hj
    simp at hj
  · exfalso
    rw [h5] at hj
    rcases List.getElem?_eq_some_iff.mp hj with ⟨hb, hget⟩
    have hmem : e ∈ (stage5 db account (computeDiscrepancy db account lb cb)
        cb cd tpc o).2.2 := hget ▸ List.getElem_mem hb
    rcases stage5_events_fiveDay _ _ _ _ _ _ _ e hmem with ⟨p, rfl⟩
    simp [isWideSearch] at he
  · rw [heq] at hj ⊢
    refine wide_preceded_by_exact_aux _ B j e ?_ hj he
    intro x hx
    rcases stage5_events_fiveDay _ _ _ _ _ _ _ x hx with ⟨p, rfl⟩
    rfl

/-- Account with discrepancy 7.00 and two unreconciled transactions (amounts
1.00 and 2.00, days 97 and 98) inside the five-day window of balance day
100; nothing matches, so every tier runs. -/
def dbTiers : DB :=
⟨[⟨1, 98, "A", 1, false, none⟩, ⟨2, 97, "A", 2, false, none⟩], [("A", 0, 0)]⟩

/-- C5 counterexample: on dbTiers the trace starts with the five-day
combinatorial search over a two-transaction pool (subset sizes 1..2, i.e. a
multi-transaction combinatorial tier) and the exact single-transaction check
comes only second, refuting the claim that the exact-match tier is attempted
before any multi-transaction combinatorial search tier. -/
theorem five_day_search_runs_before_exact_check :
    (processAccount dbTiers "A" 0 0 10 100 0 oracleDefault).2.2 =
      [TierEvent.fiveDay [(1, 98, 1), (2, 97, 2)], TierEvent.exactCheck,
       TierEvent.recentSurrounding [(1, 98, 1), (2, 97, 2)], TierEvent.fullSearch] := by
  with_unfolding_all decide

/-- C5 amended witness: the theorem at dbTiers with j = 2 (the widened-window
search event): the exact check sits at an earlier index. -/
theorem exact_check_precedes_wide_tiers_witness :
    ∃ i, i < 2 ∧
      ((processAccount dbTiers "A" 0 0 10 100 0 oracleDefault).2.2)[i]? =
        some TierEvent.exactCheck :=
  exact_check_precedes_wide_tiers dbTiers "A" 0 0 10 100 0 oracleDefault 2
    (TierEvent.recentSurrounding [(1, 98, 1), (2, 97, 2)])
    (by with_unfolding_all decide) (by with_unfolding_all decide)

/-- Account whose only transaction in the five-day window is already
reconciled (reconciled = 1, reconcile_date day 90). -/
def dbReconciledInWindow : DB :=
⟨[⟨7, 98, "A", 5, true, some 90⟩], [("A", 0, 0)]⟩

/-- C6 (code bug exhibit): the five-day pool the orchestrator passes to
find_matching_transactions contains the reconciled transaction 7 - the
query of src lines 506-509 has no reconciled = 0 filter - so the tier-2
pool is NOT restricted to unreconciled transactions; the first trace event
records exactly that pool. -/
theorem five_day_pool_contains_reconciled_transaction :
    last_5_days_transactions dbReconciledInWindow "A" 100 = [(7, 98, 5)] ∧
      dbReconciledInWindow.transactions = [⟨7, 98, "A", 5, true, some 90⟩] ∧
      (processAccount dbReconciledInWindow "A" 0 0 3 100 0 oracleDefault).2.2.head? =
        some (TierEvent.fiveDay [(7, 98, 5)]) := by
  with_unfolding_all decide

/-- C8 amended: a missing checkpoint row aborts the ENTIRE run via
sys.exit(1): the state is returned unchanged (no checkpoint is fabricated),
no summary entry is produced, and no subsequent account is processed. -/
theorem missing_checkpoint_aborts_run :
    ∀ (db : DB) (a : String) (rest : List String)
      (balanceInfo : String → ℚ × ℤ) (tpc : ℚ)
      (oracles : String → AccountOracle),
      lookupBalance db a = none →
      reconcileLoop db (a :: rest) balanceInfo tpc oracles = (db, [], true) := by
  intro db a rest binfo tpc orc h
  unfold reconcileLoop
  rw [h]

/-- Two accounts: account A (first in SELECT DISTINCT order) has a
transaction but no checkpoint row; account B has a checkpoint and a
zero-discrepancy unreconciled transaction. -/
def dbMissingCheckpoint : DB :=
⟨[⟨1, 5, "A", 7, false, none⟩, ⟨2, 5, "B", 50, false, none⟩], [("B", 0, 0)]⟩

/-- C8 amended witness: the theorem at dbMissingCheckpoint, whose account A
has no checkpoint row. -/
theorem missing_checkpoint_aborts_run_witness :
    reconcileLoop dbMissingCheckpoint ["A", "B"] (fun _ => (50, 10)) 0
        (fun _ => oracleDefault) = (dbMissingCheckpoint, [], true) :=
  missing_checkpoint_aborts_run dbMissingCheckpoint "A" ["B"]
    (fun _ => (50, 10)) 0 (fun _ => oracleDefault)
    (by with_unfolding_all decide)

/-- C8 counterexample: on dbMissingCheckpoint the run exits with the state
unchanged and an empty summary, although account B comes after A in the
account list and, processed on its own, would have fully reconciled - so
the missing checkpoint of one account DOES abort processing of subsequent
accounts, refuting the claim as stated. -/
theorem missing_checkpoint_skips_later_accounts :
    reconcile_accounts dbMissingCheckpoint (fun _ => (50, 10)) 0
        (fun _ => oracleDefault) = (dbMissingCheckpoint, [], true) ∧
      distinctAccounts dbMissingCheckpoint = ["A", "B"] ∧
      (processAccount dbMissingCheckpoint "B" 0 0 50 10 0 oracleDefault).2.1 =
        some ResTag.fullyReconciled := by
  with_unfolding_all decide

/-- Two unreconciled transactions of +5.00 each against discrepancy -5.00:
each quantizes to the negated discrepancy. -/
def txnsTwoExact : List Txn :=
[⟨1, 98, "A", 5, false, none⟩, ⟨2, 97, "A", 5, false, none⟩]

/-- C10 (code bug exhibit): the exact-match tier (src lines 551-556) wraps
ALL matching transactions into ONE candidate combination: with two +5.00
matches against discrepancy -5.00 it produces the single candidate
[(1, 98, 5), (2, 97, 5)] of size 2, whose quantized sum 10.00 is not the
negated discrepancy 5.00 - not one size-one candidate per matching
transaction. -/
theorem exact_tier_merges_matches_into_one_candidate :
    exact_match_candidates txnsTwoExact (-5) = [[(1, 98, 5), (2, 97, 5)]] ∧
      ((exact_match_candidates txnsTwoExact (-5)).headD []).length = 2 ∧
      quantize (comboSum ((exact_match_candidates txnsTwoExact (-5)).headD [])) ≠
        -(-5 : ℚ) := by
  with_unfolding_all decide

end MMReconcile
